import Mathlib

/-!
Verification development for the perk CRUD API
(`src/server/src/controllers/perkController.js`).

The controller is embedded shallowly: request bodies are association
lists of JavaScript values, handlers are pure functions from the request
data to an outcome that records either the early (pre-store) response or
the exact arguments handed to the record store.  The external record
store (the mongoose `Perk` model, whose source is not part of the
repository snapshot) is modelled from the spec's store interface.
-/

/-- A JavaScript value as it can appear in a parsed JSON request body.
Numbers are modelled as integers (floating-point niceties such as NaN
are not exercised by any property below). -/
inductive JSValue where
  | str (s : String)
  | num (n : Int)
  | bool (b : Bool)
  | null
deriving DecidableEq

/-- JavaScript truthiness: `""`, `0`, `false` and `null` are falsy. -/
def JSValue.truthy : JSValue → Bool
  | .str s => !s.isEmpty
  | .num n => n != 0
  | .bool b => b
  | .null => false

/-- `typeof v === 'string'`. -/
def JSValue.isString : JSValue → Bool
  | .str _ => true
  | _ => false

/-- A parsed JSON object body: an association list of key/value pairs
(keys are distinct in a JS object; none of the proofs require that). -/
abbrev Body : Type := List (String × JSValue)

/-- Property access `body.k`: the first binding of `k`, `none` for
JavaScript `undefined` (key absent). -/
def getField (body : Body) (k : String) : Option JSValue :=
  match body with
  | [] => none
  | (k2, v) :: rest => if k2 = k then some v else getField rest k

/-- `Object.keys(body)`. -/
def bodyKeys (body : Body) : List String :=
  body.map Prod.fst

/-- `const allowedUpdates = ['title', 'description', 'category', 'discountPercent', 'merchant']`
(perkController.js line 84). -/
def allowedUpdates : List String :=
  ["title", "description", "category", "discountPercent", "merchant"]

/-- The fixed category enumeration
`['food', 'tech', 'travel', 'fitness', 'other']` (lines 12 and 104). -/
def categoryEnum : List String :=
  ["food", "tech", "travel", "fitness", "other"]

/-- `['food', 'tech', 'travel', 'fitness', 'other'].includes(v)`: membership
of a JS value in the list of category strings. -/
def isCategory : JSValue → Bool
  | .str s => categoryEnum.contains s
  | _ => false

/-- `typeof v === 'number' && 0 <= v && v <= 100`: the discount-percent
constraint of line 109. -/
def discountOk : JSValue → Bool
  | .num n => 0 ≤ n && n ≤ 100
  | _ => false

/-- Line 96: `if (updates.title && typeof updates.title !== 'string')
errors.push('Title must be a string')`. -/
def titleErrors (updates : Body) : List String :=
  match getField updates "title" with
  | some v => if v.truthy && !v.isString then ["Title must be a string"] else []
  | none => []

/-- Line 100: the same truthiness-guarded string check for `description`. -/
def descriptionErrors (updates : Body) : List String :=
  match getField updates "description" with
  | some v => if v.truthy && !v.isString then ["Description must be a string"] else []
  | none => []

/-- Line 104: `if (updates.category && !enum.includes(updates.category))`. -/
def categoryErrors (updates : Body) : List String :=
  match getField updates "category" with
  | some v => if v.truthy && !(isCategory v) then
      ["Category must be one of: food, tech, travel, fitness, other"] else []
  | none => []

/-- Lines 108-112: `if (updates.discountPercent !== undefined)` then check
number-in-range; note the guard is definedness, not truthiness. -/
def discountErrors (updates : Body) : List String :=
  match getField updates "discountPercent" with
  | some v => if !(discountOk v) then
      ["Discount percent must be a number between 0 and 100"] else []
  | none => []

/-- Line 114: the truthiness-guarded string check for `merchant`. -/
def merchantErrors (updates : Body) : List String :=
  match getField updates "merchant" with
  | some v => if v.truthy && !v.isString then ["Merchant must be a string"] else []
  | none => []

/-- Lines 94-116: the accumulated `errors` array of `updatePerk`, in
push order. -/
def validateUpdates (updates : Body) : List String :=
  titleErrors updates ++ descriptionErrors updates ++ categoryErrors updates
    ++ discountErrors updates ++ merchantErrors updates

/-- The outcome of the pure part of `updatePerk` (everything before the
store round-trip): one of the three early 400 responses, or the call
`Perk.findByIdAndUpdate(id, { $set: updates }, ...)` with the given
field set. -/
inductive UpdateOutcome where
  | respondBadId
  | respondInvalidFields
  | respondValidationErrors (errs : List String)
  | callStore (updates : Body)
deriving DecidableEq

/-- Lines 73-123 of `updatePerk`: identifier syntax check
(`mongoose.Types.ObjectId.isValid(id)`, abstracted to the Boolean
`idValid`), the allowed-field whitelist check, the accumulated field
validation, and finally the store call. -/
def updatePerkPure (idValid : Bool) (updates : Body) : UpdateOutcome :=
  if !idValid then .respondBadId
  else if !((bodyKeys updates).all (fun k => allowedUpdates.contains k)) then
    .respondInvalidFields
  else
    let errors := validateUpdates updates
    if errors.length > 0 then .respondValidationErrors errors
    else .callStore updates

/-- A document held by the record store: a stable identifier plus its
editable fields. -/
structure StoredDoc where
  docId : String
  fields : Body
deriving DecidableEq

/-- One `$set` assignment: replace the first binding of `k`, or append
the binding when the key is absent. -/
def setField (fields : Body) (k : String) (v : JSValue) : Body :=
  match fields with
  | [] => [(k, v)]
  | (k2, w) :: rest => if k2 = k then (k2, v) :: rest else (k2, w) :: setField rest k v

/-- MongoDB `$set` with a field map: apply each assignment in order. -/
def applySet (fields : Body) (updates : Body) : Body :=
  match updates with
  | [] => fields
  | (k, v) :: rest => applySet (setField fields k v) rest

/-- Modelled from the spec: the external Record Store's
`updateById(id, partialFields) -> record | none` (§6), i.e. mongoose
`Perk.findByIdAndUpdate(id, { $set: updates }, { new: true })` whose
model source is not in the repository snapshot: find the first document
with the given identifier, apply the `$set`, and return the updated
document, or `none` when no document matches. -/
def findByIdAndUpdate (db : List StoredDoc) (i : String) (updates : Body) : Option StoredDoc :=
  match db with
  | [] => none
  | d :: rest =>
    if d.docId = i then some { d with fields := applySet d.fields updates }
    else findByIdAndUpdate rest i updates

/-- Modelled from the spec: the store's plain `findById(id) -> record | none`
(§6), used to phrase what an update with an empty field set returns. -/
def findDoc (db : List StoredDoc) (i : String) : Option StoredDoc :=
  match db with
  | [] => none
  | d :: rest => if d.docId = i then some d else findDoc rest i

/-- The complete response of `updatePerk`: the three early 400s, the 404
of line 131, or the 200 of line 135 carrying the post-update document. -/
inductive UpdateResult where
  | badId
  | invalidFields
  | validationErrors (errs : List String)
  | notFound
  | ok (doc : StoredDoc)
deriving DecidableEq

/-- `updatePerk` end to end, against a store state `db`: run the pure
validation stage, then the (spec-modelled) store update. -/
def updatePerkFull (idValid : Bool) (i : String) (updates : Body) (db : List StoredDoc) :
    UpdateResult :=
  match updatePerkPure idValid updates with
  | .respondBadId => .badId
  | .respondInvalidFields => .invalidFields
  | .respondValidationErrors errs => .validationErrors errs
  | .callStore u =>
    match findByIdAndUpdate db i u with
    | some d => .ok d
    | none => .notFound

/-- Joi `title: Joi.string().min(2).required()` (line 8): absent, a
non-string, or a string shorter than 2 characters (Joi also rejects the
empty string) is an error. -/
def checkTitle (body : Body) : Option String :=
  match getField body "title" with
  | none => some "title is required"
  | some (.str s) => if s.length < 2 then some "title length must be at least 2 characters long" else none
  | some _ => some "title must be a string"

/-- Joi `description: Joi.string().allow('')` (line 10): if present it
must be a string (the empty string is allowed). -/
def checkDescription (body : Body) : Option String :=
  match getField body "description" with
  | none => none
  | some (.str _) => none
  | some _ => some "description must be a string"

/-- Joi `category: Joi.string().valid(...).default('other')` (line 12):
if present it must be one of the five category strings. -/
def checkCategory (body : Body) : Option String :=
  match getField body "category" with
  | none => none
  | some v => if isCategory v then none else some "category must be one of the allowed values"

/-- Joi `discountPercent: Joi.number().min(0).max(100).default(0)`
(line 14): if present it must be a number between 0 and 100. -/
def checkDiscount (body : Body) : Option String :=
  match getField body "discountPercent" with
  | none => none
  | some v => if discountOk v then none else some "discountPercent must be a number between 0 and 100"

/-- Joi `merchant: Joi.string().allow('')` (line 16). -/
def checkMerchant (body : Body) : Option String :=
  match getField body "merchant" with
  | none => none
  | some (.str _) => none
  | some _ => some "merchant must be a string"

/-- Append a Joi default when the key is absent from the input. -/
def addDefaultField (body : Body) (k : String) (v : JSValue) : Body :=
  match getField body k with
  | some _ => body
  | none => body ++ [(k, v)]

/-- Shallow embedding of `perkSchema.validate(req.body)` (lines 6-18
and 61): Joi with default options rejects unknown keys and aborts on
the first field error; on success it returns the value with the
`category` and `discountPercent` defaults filled in.  Joi's `convert`
coercions (e.g. numeric strings to numbers) are not modelled; error
messages are abbreviated. -/
def perkSchemaValidate (body : Body) : Except String Body :=
  if !((bodyKeys body).all (fun k => allowedUpdates.contains k)) then
    .error "unknown key is not allowed"
  else match checkTitle body with
  | some m => .error m
  | none =>
  match checkDescription body with
  | some m => .error m
  | none =>
  match checkCategory body with
  | some m => .error m
  | none =>
  match checkDiscount body with
  | some m => .error m
  | none =>
  match checkMerchant body with
  | some m => .error m
  | none =>
    .ok (addDefaultField (addDefaultField body "category" (.str "other"))
      "discountPercent" (.num 0))

/-- The outcome of the pure part of `createPerk` (lines 58-64): the 400
of line 62, or the call `Perk.create({ ...value })` with the validated
value. -/
inductive CreateOutcome where
  | respondBadRequest (msg : String)
  | callInsert (value : Body)
deriving DecidableEq

/-- Lines 58-64 of `createPerk` before the store round-trip. -/
def createPerkPure (body : Body) : CreateOutcome :=
  match perkSchemaValidate body with
  | .error m => .respondBadRequest m
  | .ok v => .callInsert v

/-- What the store signals back for an insert: success, the duplicate-key
condition (`err.code === 11000`), or any other failure. -/
inductive InsertResult where
  | inserted (doc : Body)
  | duplicateKey
  | otherFailure
deriving DecidableEq

/-- The complete response of `createPerk`: 400 (line 62), 201 (line 65),
409 on the duplicate-key condition (line 67), or delegation to the
fallback error responder `next(err)` (line 68). -/
inductive CreateResult where
  | badRequest (msg : String)
  | created (doc : Body)
  | conflict
  | delegated
deriving DecidableEq

/-- `createPerk` end to end, with the store's insert behaviour passed in
as a function of the validated value. -/
def createPerk (body : Body) (insert : Body → InsertResult) : CreateResult :=
  match perkSchemaValidate body with
  | .error m => .badRequest m
  | .ok v =>
    match insert v with
    | .inserted d => .created d
    | .duplicateKey => .conflict
    | .otherFailure => .delegated

/-- A record as returned by store queries, with the attribute the filter
handler matches on and the timestamp the sort orders by. -/
structure Perk where
  title : String
  createdAt : Nat
deriving DecidableEq

/-- Newest-first order on records: `a` may precede `b` when `b` was
created no later than `a`. -/
def newerFirst (a b : Perk) : Prop := b.createdAt ≤ a.createdAt

instance : DecidableRel newerFirst := fun a b => Nat.decLe b.createdAt a.createdAt

instance : IsTotal Perk newerFirst := ⟨fun a b => Nat.le_total b.createdAt a.createdAt⟩

instance : IsTrans Perk newerFirst := ⟨fun _ _ _ h1 h2 => Nat.le_trans h2 h1⟩

/-- Modelled from the spec: the external Record Store's
`findByExactField(field, value) -> sequence<record>` sorted by creation
time descending (§6), i.e. mongoose
`Perk.find({ title: title }).sort({ createdAt: -1 })` (line 27), whose
model source is not in the repository snapshot: keep exactly the records
whose title equals the value, newest first. -/
def perkFindByTitle (db : List Perk) (t : String) : List Perk :=
  (db.filter (fun p => p.title = t)).insertionSort newerFirst

/-- The response of `filterPerks`: the 200 of line 29 with the matching
records, or the 400 `'Title query parameter is required'` of line 32. -/
inductive FilterResult where
  | okList (perks : List Perk)
  | missingTitle
deriving DecidableEq

/-- Lines 23-35 of `filterPerks`: destructure `req.query.title`
(`none` = parameter absent) and branch on its JS truthiness — an empty
string is falsy and takes the 400 branch. -/
def filterPerks (titleQ : Option String) (db : List Perk) : FilterResult :=
  match titleQ with
  | some t => if !t.isEmpty then .okList (perkFindByTitle db t) else .missingTitle
  | none => .missingTitle

/-- The violation message `updatePerk` pushes for each allowed field. -/
def fieldViolationMessage (f : String) : String :=
  if f = "title" then "Title must be a string"
  else if f = "description" then "Description must be a string"
  else if f = "category" then "Category must be one of: food, tech, travel, fitness, other"
  else if f = "discountPercent" then "Discount percent must be a number between 0 and 100"
  else "Merchant must be a string"

/-- The spec's per-field constraint for a partial update (§4.2): title,
description and merchant must be strings, category a member of the fixed
enumeration, discountPercent a number in [0, 100]. -/
def violatesConstraint (f : String) (v : JSValue) : Bool :=
  if f = "category" then !(isCategory v)
  else if f = "discountPercent" then !(discountOk v)
  else !v.isString

/-- Whether `updatePerk`'s validation code actually flags field `f` of
the body: the constraint is only examined when the value is truthy
(definedness suffices for `discountPercent` alone). -/
def checkedViolation (updates : Body) (f : String) : Bool :=
  match getField updates f with
  | none => false
  | some v =>
    if f = "discountPercent" then !(discountOk v)
    else v.truthy && violatesConstraint f v

theorem titleErrors_eq (u : Body) :
    titleErrors u = if checkedViolation u "title" then ["Title must be a string"] else [] := by
  unfold titleErrors checkedViolation violatesConstraint
  rcases getField u "title" with _ | v <;> simp

theorem descriptionErrors_eq (u : Body) :
    descriptionErrors u =
      if checkedViolation u "description" then ["Description must be a string"] else [] := by
  unfold descriptionErrors checkedViolation violatesConstraint
  rcases getField u "description" with _ | v <;> simp

theorem categoryErrors_eq (u : Body) :
    categoryErrors u =
      if checkedViolation u "category" then
        ["Category must be one of: food, tech, travel, fitness, other"] else [] := by
  unfold categoryErrors checkedViolation violatesConstraint
  rcases getField u "category" with _ | v <;> simp

theorem discountErrors_eq (u : Body) :
    discountErrors u =
      if checkedViolation u "discountPercent" then
        ["Discount percent must be a number between 0 and 100"] else [] := by
  unfold discountErrors checkedViolation violatesConstraint
  rcases getField u "discountPercent" with _ | v <;> simp

theorem merchantErrors_eq (u : Body) :
    merchantErrors u = if checkedViolation u "merchant" then ["Merchant must be a string"] else [] := by
  unfold merchantErrors checkedViolation violatesConstraint
  rcases getField u "merchant" with _ | v <;> simp

/-- The accumulated error list is exactly one violation message per
allowed field the code flags, in whitelist order. -/
theorem validateUpdates_eq (u : Body) :
    validateUpdates u =
      (allowedUpdates.filter (checkedViolation u)).map fieldViolationMessage := by
  unfold validateUpdates allowedUpdates
  rw [titleErrors_eq, descriptionErrors_eq, categoryErrors_eq, discountErrors_eq,
    merchantErrors_eq]
  rcases h1 : checkedViolation u "title" <;>
    rcases h2 : checkedViolation u "description" <;>
    rcases h3 : checkedViolation u "category" <;>
    rcases h4 : checkedViolation u "discountPercent" <;>
    rcases h5 : checkedViolation u "merchant" <;>
    simp [List.filter, h1, h2, h3, h4, h5, fieldViolationMessage]

/-- Claim C9: a filter request whose `title` query parameter is present
but equal to the empty string gets the 400 "Title query parameter is
required" response — whatever the store holds, so the store is not
consulted — because the handler branches on JS truthiness and `""` is
falsy. -/
theorem filterPerks_empty_title_rejected (db : List Perk) :
    filterPerks (some "") db = .missingTitle := rfl

/-- Claim C2: an update body containing a key outside the allowed list
never reaches the store (for any identifier validity), and when the
identifier is syntactically valid the handler answers with the single
"Invalid fields provided for update" client error. -/
theorem updatePerk_rejects_unknown_fields (idValid : Bool) (updates : Body)
    (h : ∃ k ∈ bodyKeys updates, allowedUpdates.contains k = false) :
    (∀ b, updatePerkPure idValid updates ≠ .callStore b) ∧
    updatePerkPure true updates = .respondInvalidFields := by
  have hall : ((bodyKeys updates).all fun k => allowedUpdates.contains k) = false := by
    rcases h with ⟨k, hk, hkc⟩
    apply Bool.eq_false_iff.mpr
    intro hall
    have := List.all_eq_true.mp hall k hk
    rw [hkc] at this
    cases this
  constructor
  · intro b
    cases idValid
    · unfold updatePerkPure
      simp
    · unfold updatePerkPure
      rw [hall]
      simp
  · unfold updatePerkPure
    rw [hall]
    simp

theorem updatePerk_rejects_unknown_fields_witness :
    (∃ k ∈ bodyKeys [(("foo" : String), JSValue.num 1)],
      allowedUpdates.contains k = false) ∧
    (∀ b, updatePerkPure true [("foo", JSValue.num 1)] ≠ .callStore b) ∧
    updatePerkPure true [("foo", JSValue.num 1)] = .respondInvalidFields :=
  ⟨⟨"foo", by decide, by decide⟩,
    updatePerk_rejects_unknown_fields true [("foo", JSValue.num 1)]
      ⟨"foo", by decide, by decide⟩⟩

/-- An update with an empty `$set` leaves the found document unchanged. -/
theorem findByIdAndUpdate_empty (db : List StoredDoc) (i : String) :
    findByIdAndUpdate db i [] = findDoc db i := by
  induction db with
  | nil => rfl
  | cons d rest ih =>
    unfold findByIdAndUpdate findDoc
    by_cases h : d.docId = i
    · rw [if_pos h, if_pos h]
      rfl
    · rw [if_neg h, if_neg h, ih]

/-- Claim C10: a syntactically valid identifier with an empty body
passes the whitelist and the field validation (the store is called with
an empty field set), and the response is 200 with the stored document
unchanged when one matches the identifier, 404 otherwise. -/
theorem updatePerk_empty_body_ok (i : String) (db : List StoredDoc) :
    updatePerkPure true [] = .callStore [] ∧
    (∀ d, findDoc db i = some d → updatePerkFull true i [] db = .ok d) ∧
    (findDoc db i = none → updatePerkFull true i [] db = .notFound) := by
  have hred : updatePerkFull true i [] db =
      (match findByIdAndUpdate db i [] with
        | some d => UpdateResult.ok d
        | none => UpdateResult.notFound) := rfl
  rw [findByIdAndUpdate_empty] at hred
  refine ⟨rfl, ?_, ?_⟩
  · intro d hd
    rw [hred, hd]
  · intro hd
    rw [hred, hd]

theorem updatePerk_empty_body_ok_witness :
    findDoc [⟨"a", [("title", JSValue.str "hi")]⟩] "a" =
      some ⟨"a", [("title", JSValue.str "hi")]⟩ ∧
    updatePerkFull true "a" [] [⟨"a", [("title", JSValue.str "hi")]⟩] =
      .ok ⟨"a", [("title", JSValue.str "hi")]⟩ :=
  ⟨by decide,
    (updatePerk_empty_body_ok "a" [⟨"a", [("title", JSValue.str "hi")]⟩]).2.1
      ⟨"a", [("title", JSValue.str "hi")]⟩ (by decide)⟩

/-- Claim C5: a create body whose title is absent, or a string of length
0 or 1, fails schema validation, so the handler responds 400 with a
validation message and the store insert is never invoked. -/
theorem createPerk_rejects_short_title (body : Body)
    (h : getField body "title" = none ∨
      ∃ s, getField body "title" = some (.str s) ∧ s.length < 2) :
    ∃ m, createPerkPure body = .respondBadRequest m ∧
      ∀ ins, createPerk body ins = .badRequest m := by
  have hval : ∃ m, perkSchemaValidate body = .error m := by
    unfold perkSchemaValidate
    cases hk : !((bodyKeys body).all fun k => allowedUpdates.contains k)
    · rw [if_neg (by simp [hk])]
      have hct : ∃ m, checkTitle body = some m := by
        rcases h with h | ⟨s, hs, hlen⟩
        · exact ⟨_, by unfold checkTitle; rw [h]⟩
        · refine ⟨"title length must be at least 2 characters long", ?_⟩
          unfold checkTitle
          rw [hs]
          simp [hlen]
      rcases hct with ⟨m, hm⟩
      rw [hm]
      exact ⟨m, rfl⟩
    · rw [if_pos (by simp [hk])]
      exact ⟨_, rfl⟩
  rcases hval with ⟨m, hm⟩
  refine ⟨m, ?_, ?_⟩
  · unfold createPerkPure
    rw [hm]
  · intro ins
    unfold createPerk
    rw [hm]

theorem createPerk_rejects_short_title_witness :
    (∃ s, getField [("title", JSValue.str "x")] "title" = some (.str s) ∧ s.length < 2) ∧
    ∃ m, createPerkPure [("title", JSValue.str "x")] = .respondBadRequest m ∧
      ∀ ins, createPerk [("title", JSValue.str "x")] ins = .badRequest m :=
  ⟨⟨"x", rfl, by decide⟩,
    createPerk_rejects_short_title [("title", JSValue.str "x")]
      (Or.inr ⟨"x", rfl, by decide⟩)⟩

/-- Looking a key up in a concatenation searches the left part first. -/
theorem getField_append (l1 l2 : Body) (k : String) :
    getField (l1 ++ l2) k =
      match getField l1 k with
      | some v => some v
      | none => getField l2 k := by
  induction l1 with
  | nil => rfl
  | cons p rest ih =>
    rcases p with ⟨k2, v⟩
    by_cases h : k2 = k
    · simp only [List.cons_append, getField, if_pos h]
    · simp only [List.cons_append, getField, if_neg h]
      exact ih

/-- A successful schema validation returns the input with the `category`
and `discountPercent` defaults appended where absent. -/
theorem perkSchemaValidate_ok_shape (body v : Body)
    (hok : perkSchemaValidate body = .ok v) :
    v = addDefaultField (addDefaultField body "category" (.str "other"))
      "discountPercent" (.num 0) := by
  unfold perkSchemaValidate at hok
  split at hok
  · cases hok
  · split at hok
    · cases hok
    · split at hok
      · cases hok
      · split at hok
        · cases hok
        · split at hok
          · cases hok
          · split at hok
            · cases hok
            · injection hok with h
              exact h.symm

/-- Claim C6: a create body that passes validation while omitting
`category` and `discountPercent` is handed to the store with `category`
defaulted to "other" and `discountPercent` defaulted to 0. -/
theorem createPerk_applies_defaults (body v : Body)
    (hok : perkSchemaValidate body = .ok v)
    (hc : getField body "category" = none)
    (hd : getField body "discountPercent" = none) :
    getField v "category" = some (.str "other") ∧
    getField v "discountPercent" = some (.num 0) := by
  have hv := perkSchemaValidate_ok_shape body v hok
  have hb1 : addDefaultField body "category" (.str "other") =
      body ++ [("category", .str "other")] := by
    unfold addDefaultField
    rw [hc]
  have hbd : getField (body ++ [("category", JSValue.str "other")]) "discountPercent" = none := by
    rw [getField_append, hd]
    rfl
  have hb2 : addDefaultField (body ++ [("category", JSValue.str "other")])
      "discountPercent" (.num 0) =
      body ++ [("category", .str "other")] ++ [("discountPercent", .num 0)] := by
    unfold addDefaultField
    rw [hbd]
  rw [hv, hb1, hb2]
  constructor
  · rw [List.append_assoc, getField_append, hc]
    rfl
  · rw [List.append_assoc, getField_append, hd]
    rfl

theorem createPerk_applies_defaults_witness :
    perkSchemaValidate [("title", JSValue.str "ab")] =
      .ok [("title", JSValue.str "ab"), ("category", JSValue.str "other"),
        ("discountPercent", JSValue.num 0)] ∧
    getField [("title", JSValue.str "ab"), ("category", JSValue.str "other"),
      ("discountPercent", JSValue.num 0)] "category" = some (.str "other") ∧
    getField [("title", JSValue.str "ab"), ("category", JSValue.str "other"),
      ("discountPercent", JSValue.num 0)] "discountPercent" = some (.num 0) :=
  ⟨rfl, createPerk_applies_defaults [("title", JSValue.str "ab")] _ rfl rfl rfl⟩

/-- Claim C8: when the store signals the duplicate-key condition
(`err.code === 11000`) for a validated create, the handler answers 409
conflict; any other store failure is forwarded to the fallback error
responder instead. -/
theorem createPerk_duplicate_conflict (body v : Body) (insert : Body → InsertResult)
    (hok : perkSchemaValidate body = .ok v) :
    (insert v = .duplicateKey → createPerk body insert = .conflict) ∧
    (insert v = .otherFailure → createPerk body insert = .delegated) := by
  constructor <;> intro h <;> simp [createPerk, hok, h]

theorem createPerk_duplicate_conflict_witness :
    perkSchemaValidate [("title", JSValue.str "ab"), ("merchant", JSValue.str "m")] =
      .ok [("title", JSValue.str "ab"), ("merchant", JSValue.str "m"),
        ("category", JSValue.str "other"), ("discountPercent", JSValue.num 0)] ∧
    createPerk [("title", JSValue.str "ab"), ("merchant", JSValue.str "m")]
      (fun _ => InsertResult.duplicateKey) = .conflict :=
  ⟨rfl, (createPerk_duplicate_conflict
      [("title", JSValue.str "ab"), ("merchant", JSValue.str "m")]
      [("title", JSValue.str "ab"), ("merchant", JSValue.str "m"),
        ("category", JSValue.str "other"), ("discountPercent", JSValue.num 0)]
      (fun _ => InsertResult.duplicateKey) rfl).1 rfl⟩

/-- Claim C7: a filter request with a non-empty title value answers 200
with exactly the records whose title equals the value verbatim, ordered
by creation time descending, and with the empty sequence — not a
not-found error — when nothing matches. -/
theorem filterPerks_exact_match (t : String) (db : List Perk) (h : t ≠ "") :
    ∃ l, filterPerks (some t) db = .okList l ∧
      (∀ p, p ∈ l ↔ p ∈ db ∧ p.title = t) ∧
      l.Sorted newerFirst ∧
      ((∀ p ∈ db, p.title ≠ t) → l = []) := by
  have ht : t.isEmpty = false := by
    rcases he : t.isEmpty
    · rfl
    · exact absurd ((String.isEmpty_iff t).mp he) h
  refine ⟨perkFindByTitle db t, ?_, ?_, ?_, ?_⟩
  · simp [filterPerks, ht]
  · intro p
    unfold perkFindByTitle
    rw [(List.perm_insertionSort newerFirst _).mem_iff, List.mem_filter]
    simp
  · exact List.sorted_insertionSort newerFirst _
  · intro hnone
    unfold perkFindByTitle
    have hfil : db.filter (fun p => p.title = t) = [] := by
      apply List.filter_eq_nil_iff.mpr
      intro p hp
      simp [hnone p hp]
    rw [hfil]
    rfl

theorem filterPerks_exact_match_witness :
    (("a" : String) ≠ "") ∧
    ∃ l, filterPerks (some "a") [⟨"a", 1⟩, ⟨"b", 2⟩, ⟨"a", 3⟩] = .okList l ∧
      (∀ p, p ∈ l ↔ p ∈ [Perk.mk "a" 1, Perk.mk "b" 2, Perk.mk "a" 3] ∧ p.title = "a") ∧
      l.Sorted newerFirst ∧
      ((∀ p ∈ [Perk.mk "a" 1, Perk.mk "b" 2, Perk.mk "a" 3], p.title ≠ "a") → l = []) :=
  ⟨by decide, filterPerks_exact_match "a" [⟨"a", 1⟩, ⟨"b", 2⟩, ⟨"a", 3⟩] (by decide)⟩

/-- If the pure stage of `updatePerk` reaches the store, the field set
it sends is the request body itself and the accumulated error list was
empty. -/
theorem callStore_inv (idValid : Bool) (updates b : Body)
    (h : updatePerkPure idValid updates = .callStore b) :
    b = updates ∧ validateUpdates updates = [] := by
  unfold updatePerkPure at h
  cases idValid
  · simp at h
  · rcases hk : (bodyKeys updates).all fun k => allowedUpdates.contains k
    · rw [hk] at h
      simp at h
    · rw [hk] at h
      simp only [Bool.not_true, Bool.not_false, if_true, if_false] at h
      rcases hval : validateUpdates updates with _ | ⟨e, es⟩
      · rw [hval] at h
        simp at h
        exact ⟨h.symm, rfl⟩
      · rw [hval] at h
        simp at h

/-- Claim C1 counterexample: `title: false` and `category: ""` each
violate their constraint (neither is a valid value for its field), yet
the handler records no violation at all — both guards are skipped
because the values are falsy — and the store is called. -/
theorem updatePerk_two_violations_cex :
    violatesConstraint "title" (JSValue.bool false) = true ∧
    violatesConstraint "category" (JSValue.str "") = true ∧
    updatePerkPure true [("title", JSValue.bool false), ("category", JSValue.str "")] =
      .callStore [("title", JSValue.bool false), ("category", JSValue.str "")] := by
  decide

/-- Claim C1 (amended): for an update body whose keys all lie in the
whitelist and that contains two or more allowed fields whose values the
code examines and finds invalid — the value is truthy and violates its
constraint, or the field is `discountPercent` and its defined value is
invalid — the handler responds with the error list containing the
violation message of every such field, one each, and the store is not
called. -/
theorem updatePerk_accumulates_all_checked (updates : Body)
    (hkeys : ((bodyKeys updates).all fun k => allowedUpdates.contains k) = true)
    (hcount : 2 ≤ (allowedUpdates.filter (checkedViolation updates)).length) :
    ∃ errs, updatePerkPure true updates = .respondValidationErrors errs ∧
      errs.length = (allowedUpdates.filter (checkedViolation updates)).length ∧
      ∀ f, f ∈ allowedUpdates → checkedViolation updates f = true →
        fieldViolationMessage f ∈ errs := by
  have hlen : 0 < (validateUpdates updates).length := by
    rw [validateUpdates_eq, List.length_map]
    omega
  refine ⟨validateUpdates updates, ?_, ?_, ?_⟩
  · unfold updatePerkPure
    rw [hkeys]
    simp only [Bool.not_true, Bool.not_false, if_true, if_false]
    rw [if_pos hlen]
    rfl
  · rw [validateUpdates_eq, List.length_map]
  · intro f hf hcv
    rw [validateUpdates_eq]
    exact List.mem_map_of_mem _ (List.mem_filter.mpr ⟨hf, hcv⟩)

theorem updatePerk_accumulates_all_checked_witness :
    (((bodyKeys [("category", JSValue.str "bad"), ("discountPercent", JSValue.num 150)]).all
      fun k => allowedUpdates.contains k) = true) ∧
    2 ≤ (allowedUpdates.filter
      (checkedViolation [("category", JSValue.str "bad"),
        ("discountPercent", JSValue.num 150)])).length ∧
    ∃ errs, updatePerkPure true
        [("category", JSValue.str "bad"), ("discountPercent", JSValue.num 150)] =
        .respondValidationErrors errs ∧
      errs.length = (allowedUpdates.filter
        (checkedViolation [("category", JSValue.str "bad"),
          ("discountPercent", JSValue.num 150)])).length ∧
      ∀ f, f ∈ allowedUpdates →
        checkedViolation [("category", JSValue.str "bad"),
          ("discountPercent", JSValue.num 150)] f = true →
        fieldViolationMessage f ∈ errs :=
  ⟨by decide, by decide,
    updatePerk_accumulates_all_checked
      [("category", JSValue.str "bad"), ("discountPercent", JSValue.num 150)]
      (by decide) (by decide)⟩

/-- Claim C3 counterexample: `title: false` is an allowed field present
in the body whose value violates the title type constraint, yet the
accumulated error list stays empty (the truthiness guard skips the
check) and the store is called with the invalid value. -/
theorem updatePerk_falsy_violation_skipped_cex :
    "title" ∈ allowedUpdates ∧
    getField [("title", JSValue.bool false)] "title" = some (JSValue.bool false) ∧
    violatesConstraint "title" (JSValue.bool false) = true ∧
    validateUpdates [("title", JSValue.bool false)] = [] ∧
    updatePerkPure true [("title", JSValue.bool false)] =
      .callStore [("title", JSValue.bool false)] := by
  decide

/-- Claim C3 (amended): for each allowed field present in the update
body whose value violates its constraint, the handler adds that field's
violation message to the accumulated list provided the value is truthy —
for `discountPercent` alone, provided merely that the value is defined. -/
theorem updatePerk_flags_truthy_violations (updates : Body) (f : String) (v : JSValue)
    (hf : f ∈ allowedUpdates)
    (hget : getField updates f = some v)
    (hviol : violatesConstraint f v = true)
    (htruthy : v.truthy = true ∨ f = "discountPercent") :
    fieldViolationMessage f ∈ validateUpdates updates := by
  have hcv : checkedViolation updates f = true := by
    have hrw : checkedViolation updates f =
        if f = "discountPercent" then !discountOk v
        else v.truthy && violatesConstraint f v := by
      unfold checkedViolation
      rw [hget]
    rw [hrw]
    have hfin : f = "title" ∨ f = "description" ∨ f = "category" ∨
        f = "discountPercent" ∨ f = "merchant" := by
      simpa [allowedUpdates] using hf
    rcases hfin with rfl | rfl | rfl | rfl | rfl
    · rw [if_neg (by decide)]
      rcases htruthy with htr | hdp
      · rw [htr, hviol]
        rfl
      · exact absurd hdp (by decide)
    · rw [if_neg (by decide)]
      rcases htruthy with htr | hdp
      · rw [htr, hviol]
        rfl
      · exact absurd hdp (by decide)
    · rw [if_neg (by decide)]
      rcases htruthy with htr | hdp
      · rw [htr, hviol]
        rfl
      · exact absurd hdp (by decide)
    · rw [if_pos rfl]
      unfold violatesConstraint at hviol
      rw [if_neg (by decide), if_pos rfl] at hviol
      exact hviol
    · rw [if_neg (by decide)]
      rcases htruthy with htr | hdp
      · rw [htr, hviol]
        rfl
      · exact absurd hdp (by decide)
  rw [validateUpdates_eq]
  exact List.mem_map_of_mem _ (List.mem_filter.mpr ⟨hf, hcv⟩)

theorem updatePerk_flags_truthy_violations_witness :
    "category" ∈ allowedUpdates ∧
    getField [("category", JSValue.str "toys")] "category" = some (JSValue.str "toys") ∧
    violatesConstraint "category" (JSValue.str "toys") = true ∧
    (JSValue.str "toys").truthy = true ∧
    fieldViolationMessage "category" ∈ validateUpdates [("category", JSValue.str "toys")] :=
  ⟨by decide, rfl, by decide, by decide,
    updatePerk_flags_truthy_violations [("category", JSValue.str "toys")] "category"
      (JSValue.str "toys") (by decide) rfl (by decide) (Or.inl (by decide))⟩

/-- Claim C4 counterexample: the update `title: "x"` passes the
whitelist and the field validation (a truthy string, its length is
never checked), the store is called, and the stored title has length 1,
breaking the claimed length-at-least-2 invariant. -/
theorem updatePerk_short_title_stored_cex :
    updatePerkPure true [("title", JSValue.str "x")] =
      .callStore [("title", JSValue.str "x")] ∧
    updatePerkFull true "a" [("title", JSValue.str "x")]
      [⟨"a", [("title", JSValue.str "hello")]⟩] =
      .ok ⟨"a", [("title", JSValue.str "x")]⟩ ∧
    ¬ 2 ≤ "x".length := by
  decide

/-- Claim C4 (amended): an update accepted by the handler only preserves
the type of `title` — whenever the accepted field set carries a truthy
`title` value, that value is a string — but its length is not
constrained, so an update may store a title of length 1. -/
theorem updatePerk_title_kept_string (idValid : Bool) (updates b : Body) (v : JSValue)
    (hcall : updatePerkPure idValid updates = .callStore b)
    (hget : getField b "title" = some v)
    (htruthy : v.truthy = true) :
    v.isString = true := by
  rcases callStore_inv idValid updates b hcall with ⟨hb, hval⟩
  subst hb
  have htit : titleErrors b = [] := by
    have h0 := hval
    unfold validateUpdates at h0
    rcases List.append_eq_nil.mp h0 with ⟨h0, _⟩
    rcases List.append_eq_nil.mp h0 with ⟨h0, _⟩
    rcases List.append_eq_nil.mp h0 with ⟨h0, _⟩
    rcases List.append_eq_nil.mp h0 with ⟨h0, _⟩
    exact h0
  unfold titleErrors at htit
  rw [hget] at htit
  have htit2 : (if v.truthy && !v.isString then ["Title must be a string"] else []) =
      ([] : List String) := htit
  cases hs : v.isString
  · rw [htruthy, hs] at htit2
    simp at htit2
  · rfl

theorem updatePerk_title_kept_string_witness :
    updatePerkPure true [("title", JSValue.str "ok")] =
      .callStore [("title", JSValue.str "ok")] ∧
    getField [("title", JSValue.str "ok")] "title" = some (JSValue.str "ok") ∧
    (JSValue.str "ok").truthy = true ∧
    (JSValue.str "ok").isString = true :=
  ⟨by decide, rfl, by decide,
    updatePerk_title_kept_string true [("title", JSValue.str "ok")]
      [("title", JSValue.str "ok")] (JSValue.str "ok") (by decide) rfl (by decide)⟩
